import Mathlib

/-!
Shallow embedding of the project state machine and edit-orchestration engine of
`src/apps/projects/routes.py` (video-server).  Python floats used for durations
and trim positions are modelled as exact rationals (the validation logic only
compares and subtracts them); machine integers are `Int`/`Nat` (Python ints are
unbounded, so no wrap-around is modelled); a raised `BadRequest`/exception is an
explicit error value.  The external document store (pymongo) and file storage
(`app.fs`) are modelled as explicit state: a list of project records and a list
of blob handles.
-/

deriving instance DecidableEq for Except

namespace VideoServer

/-- Opaque handle into the asset store.  `scope` is the project directory the
blob lives under (`app.fs.put` scopes a blob either by `project_id` or by the
`storage_id` of the project's primary blob); `serial` distinguishes blobs
within a scope. -/
structure Handle where
  scope : ℕ
  serial : ℕ
deriving DecidableEq, Repr

/-- Position tag of a preview thumbnail: a capture position (float in the
source) or the string `"custom"` for uploads. -/
inductive PreviewPos where
  | custom
  | num (q : ℚ)
deriving DecidableEq, Repr

/-- Timeline thumbnail asset as stored in `thumbnails.timeline`; the opaque
payload fields (`filename`, `mimetype`, dimensions, size) are modelled as
numbers. -/
structure Thumb where
  filename : ℕ
  mimetype : ℕ
  width : ℕ
  height : ℕ
  size : ℕ
  storage_id : Handle
deriving DecidableEq, Repr

/-- Preview thumbnail asset as stored in `thumbnails.preview`. -/
structure Preview where
  filename : ℕ
  mimetype : ℕ
  width : ℕ
  height : ℕ
  size : ℕ
  storage_id : Handle
  position : PreviewPos
deriving DecidableEq, Repr

/-- The three independent `processing` flags of a project record. -/
structure Flags where
  video : Bool
  thumbnail_preview : Bool
  thumbnails_timeline : Bool
deriving DecidableEq, Repr

/-- The metadata fields of a project that the validated endpoints read:
`duration` (float in the source, modelled as ℚ), `width`/`height`, and `size`
(the content length used by the range streamer). -/
structure Metadata where
  duration : ℚ
  width : ℤ
  height : ℤ
  size : ℕ
deriving DecidableEq, Repr

/-- A project record as stored in `app.mongo.db.projects`, restricted to the
fields the embedded endpoints read or write. -/
structure Project where
  id : ℕ
  filename : ℕ
  mime_type : ℕ
  storage_id : Option Handle
  metadata : Metadata
  version : ℕ
  parent : Option ℕ
  processing : Flags
  timeline : List Thumb
  preview : Option Preview
deriving DecidableEq, Repr

/-- The shared persistent state: the project collection and the asset store.
`nextId` / `nextSerial` supply fresh record ids and blob serials. -/
structure Store where
  projects : List Project
  blobs : List Handle
  nextId : ℕ
  nextSerial : ℕ
deriving DecidableEq, Repr

/-- Modelled from the spec: `app.fs.put` (lib file-storage adapter, not under
src/) stores a blob under the given project scope and returns a fresh opaque
handle ("put(bytes, destinationHint) -> opaqueHandle"). -/
def fsPut (st : Store) (scope : ℕ) : Store × Handle :=
  let h : Handle := ⟨scope, st.nextSerial⟩
  ({ st with blobs := st.blobs ++ [h], nextSerial := st.nextSerial + 1 }, h)

/-- Modelled from the spec: `app.fs.put` for the custom preview upload, whose
destination path is derived from the (deterministic) thumbnail filename, so it
may overwrite an existing blob; the resulting handle is an input. -/
def fsPutAt (st : Store) (h : Handle) : Store :=
  { st with blobs := if h ∈ st.blobs then st.blobs else st.blobs ++ [h] }

/-- Modelled from the spec: `app.fs.delete(handle)` removes a single blob. -/
def fsDelete (st : Store) (h : Handle) : Store :=
  { st with blobs := st.blobs.filter (fun b => decide (b ≠ h)) }

/-- Modelled from the spec: `app.fs.delete_dir` ("deleteSubtree(rootHandle)")
removes every blob in the project subtree the handle belongs to. -/
def fsDeleteDir (st : Store) (h : Handle) : Store :=
  { st with blobs := st.blobs.filter (fun b => decide (b.scope ≠ h.scope)) }

/-- Mongo `find_one_and_update({'_id': pid}, {'$set': ...})`: update the record with
the given id (the update functions used below all preserve `id`). -/
def dbUpdate (st : Store) (pid : ℕ) (f : Project → Project) : Store :=
  { st with projects := st.projects.map (fun q => if q.id = pid then f q else q) }

/-- Mongo `delete_one({'_id': pid})`. -/
def dbDeleteOne (st : Store) (pid : ℕ) : Store :=
  { st with projects := st.projects.filter (fun q => decide (q.id ≠ pid)) }

/-! ### Edit validation (`RetrieveEditDestroyProject.put`, routes.py 591-667) -/

/-- The policy constants the edit endpoint reads from `app.config`. -/
structure Config where
  MIN_TRIM_DURATION : ℚ
  MIN_VIDEO_WIDTH : ℤ
  MIN_VIDEO_HEIGHT : ℤ
  MAX_VIDEO_WIDTH : ℤ
  MAX_VIDEO_HEIGHT : ℤ
  ALLOW_INTERPOLATION : Bool
  INTERPOLATION_LIMIT : ℤ
deriving DecidableEq, Repr

/-- A `trim` entry of an edit request (floats in the source). -/
structure Trim where
  start : ℚ
  end_ : ℚ
deriving DecidableEq, Repr

/-- A `crop` entry of an edit request. -/
structure Crop where
  width : ℤ
  height : ℤ
  x : ℤ
  y : ℤ
deriving DecidableEq, Repr

/-- A schema-validated edit request body: each of the four operations is
optional. -/
structure EditDoc where
  trim : Option Trim
  rotate : Option ℤ
  scale : Option ℤ
  crop : Option Crop
deriving DecidableEq, Repr

/-- The distinct `BadRequest` rejections raised by the edit validation chain
(routes.py 606-651), identified by the violated constraint. -/
inductive EditError where
  | trimStartNotBeforeEnd
  | trimTooShort
  | trimEndOutside
  | trimEntireVideo
  | cropX
  | cropY
  | cropWidth
  | cropHeight
  | scaleNoOp
  | scaleUpNotAllowed
  | scaleInterpolationLimit
deriving DecidableEq, Repr

/-- Trim validation, routes.py 606-621.  Note the source rejects
`end - start <= MIN_TRIM_DURATION` (line 609 uses `<=`, not `<`). -/
def validateTrim (cfg : Config) (md : Metadata) (t : Trim) : Except EditError Unit :=
  if t.start ≥ t.end_ then
    .error .trimStartNotBeforeEnd
  else if t.end_ - t.start ≤ cfg.MIN_TRIM_DURATION ∨
      md.duration - t.start < cfg.MIN_TRIM_DURATION then
    .error .trimTooShort
  else if t.end_ > md.duration then
    .error .trimEndOutside
  else if t.start = 0 ∧ t.end_ = md.duration then
    .error .trimEntireVideo
  else
    .ok ()

/-- Crop validation, routes.py 623-631. -/
def validateCrop (cfg : Config) (md : Metadata) (c : Crop) : Except EditError Unit :=
  if md.width - c.x < cfg.MIN_VIDEO_WIDTH then
    .error .cropX
  else if md.height - c.y < cfg.MIN_VIDEO_HEIGHT then
    .error .cropY
  else if c.x + c.width > md.width then
    .error .cropWidth
  else if c.y + c.height > md.height then
    .error .cropHeight
  else
    .ok ()

/-- Effective reference width for scale validation: the crop's width when a
crop is present in the same request, else the metadata width
(routes.py 634-636). -/
def effectiveWidth (md : Metadata) (crop : Option Crop) : ℤ :=
  match crop with
  | some c => c.width
  | none => md.width

/-- Scale validation, routes.py 633-651. -/
def validateScale (cfg : Config) (md : Metadata) (crop : Option Crop) (s : ℤ) :
    Except EditError Unit :=
  if s = effectiveWidth md crop then
    .error .scaleNoOp
  else if cfg.ALLOW_INTERPOLATION = false ∧ s > effectiveWidth md crop then
    .error .scaleUpNotAllowed
  else if cfg.ALLOW_INTERPOLATION = true ∧ s > effectiveWidth md crop ∧
      effectiveWidth md crop ≥ cfg.INTERPOLATION_LIMIT then
    .error .scaleInterpolationLimit
  else
    .ok ()

/-- The full custom validation chain of the put endpoint: trim, then crop,
then scale, each only when present, raising the first violated constraint. -/
def validateEditDoc (cfg : Config) (md : Metadata) (doc : EditDoc) : Except EditError Unit :=
  match (match doc.trim with | some t => validateTrim cfg md t | none => .ok ()) with
  | .error e => .error e
  | .ok _ =>
    match (match doc.crop with | some c => validateCrop cfg md c | none => .ok ()) with
    | .error e => .error e
    | .ok _ =>
      match doc.scale with
      | some s => validateScale cfg md doc.crop s
      | none => .ok ()

/-- Modelled from the spec: `validate_document` (lib/utils, not under src/)
checks the request body against the cerberus schema of routes.py 316-373.
Every top-level field is optional (`required: False`), so an empty body yields
the empty document; a present field must satisfy its declared bounds. -/
def schemaValid (cfg : Config) (doc : EditDoc) : Bool :=
  (match doc.trim with
   | some t => decide (0 ≤ t.start) && decide (1 ≤ t.end_)
   | none => true) &&
  (match doc.rotate with
   | some r => decide (r = -270 ∨ r = -180 ∨ r = -90 ∨ r = 90 ∨ r = 180 ∨ r = 270)
   | none => true) &&
  (match doc.scale with
   | some s => decide (cfg.MIN_VIDEO_WIDTH ≤ s ∧ s ≤ cfg.MAX_VIDEO_WIDTH)
   | none => true) &&
  (match doc.crop with
   | some c => decide (cfg.MIN_VIDEO_WIDTH ≤ c.width ∧ c.width ≤ cfg.MAX_VIDEO_WIDTH ∧
       cfg.MIN_VIDEO_HEIGHT ≤ c.height ∧ c.height ≤ cfg.MAX_VIDEO_HEIGHT ∧
       0 ≤ c.x ∧ 0 ≤ c.y)
   | none => true)

/-- Response of the put endpoint. -/
inductive PutResponse where
  | processing202
  | schemaError
  | editError (e : EditError)
  | ok
deriving DecidableEq, Repr

/-- Outcome of a put: the response, the project record after the request, and
the `edit_video` job dispatched (carrying the change set), if any. -/
structure PutOutcome where
  response : PutResponse
  project : Project
  job : Option EditDoc
deriving DecidableEq, Repr

/-- Set `processing.video` (the unconditional `$set` of routes.py 654-658). -/
def setVideoFlag (p : Project) : Project :=
  { p with processing := { p.processing with video := true } }

/-- The edit endpoint `RetrieveEditDestroyProject.put`, routes.py 591-667:
processing check, schema validation, custom validation, flag set, dispatch. -/
def put (cfg : Config) (p : Project) (doc : EditDoc) : PutOutcome :=
  if p.processing.video then
    ⟨.processing202, p, none⟩
  else if schemaValid cfg doc = false then
    ⟨.schemaError, p, none⟩
  else
    match validateEditDoc cfg p.metadata doc with
    | .error e => ⟨.editError e, p, none⟩
    | .ok _ => ⟨.ok, setVideoFlag p, some doc⟩

/-- The edit request whose JSON body is empty (or mentions none of the four
operations). -/
def emptyEditDoc : EditDoc := ⟨none, none, none, none⟩

/-! ### Flag acquisition (routes.py 591 + 654-658, 1063 + 1070-1074, 1089 + 1100-1104)

Each endpoint that acquires a processing flag first reads the record (the
`self._project` load), checks the flag on that client-side snapshot, and later
issues `find_one_and_update({'_id': ...}, {'$set': {'processing.<flag>': True}})`
whose filter matches on the id only — an unconditional write.  We model one
flag of the stored record as a `Bool` and a client as a two-step program:
step 0 reads the stored flag into a local snapshot; step 1 either returns
failure (the 202 "processing" response) when the *snapshot* was true, or
issues the unconditional write and returns success. -/

/-- Client-side state of one acquisition attempt: program counter, the flag
value read at step 0, and the final result (`some true` = acquired and
dispatched, `some false` = 202 response). -/
structure ClientState where
  pc : ℕ
  snapshot : Bool
  result : Option Bool
deriving DecidableEq, Repr

/-- One atomic store interaction of an acquisition attempt: returns the new
stored flag value and the new client state. -/
def acquireStep (flag : Bool) (c : ClientState) : Bool × ClientState :=
  match c.pc with
  | 0 => (flag, ⟨1, flag, none⟩)
  | 1 =>
    if c.snapshot then (flag, ⟨2, c.snapshot, some false⟩)
    else (true, ⟨2, c.snapshot, some true⟩)
  | _ => (flag, c)

/-- Two concurrent acquisition attempts on the same project and flag, sharing
the stored flag. -/
structure TwoClients where
  flag : Bool
  c1 : ClientState
  c2 : ClientState
deriving DecidableEq, Repr

/-- Run one step of the chosen client (`true` = client 1). -/
def schedStep (s : TwoClients) (who : Bool) : TwoClients :=
  if who then
    let r := acquireStep s.flag s.c1
    { s with flag := r.1, c1 := r.2 }
  else
    let r := acquireStep s.flag s.c2
    { s with flag := r.1, c2 := r.2 }

/-- Run a schedule (interleaving) of client steps. -/
def runSched (s : TwoClients) : List Bool → TwoClients
  | [] => s
  | w :: ws => runSched (schedStep s w) ws

/-- Both clients about to run against a flag currently reading `false`. -/
def initTwo : TwoClients := ⟨false, ⟨0, false, none⟩, ⟨0, false, none⟩⟩

/-- Did this attempt acquire the flag (dispatch work)? -/
def succeeded (c : ClientState) : Bool := c.result == some true

/-- Exactly one of the two attempts acquired the flag. -/
def exactlyOneSucceeds (s : TwoClients) : Bool :=
  Bool.xor (succeeded s.c1) (succeeded s.c2)

/-! ### Duplication (`DuplicateProject.post`, routes.py 694-791) -/

/-- Fault-injection points for duplication: the blob-copy steps after the
child record insert (the `app.fs.get`/`app.fs.put` pairs), as enumerated by
the atomicity claim. -/
inductive DupFault where
  | putPrimary
  | putPreview
  | putTimeline (i : ℕ)
deriving DecidableEq, Repr

/-- Outcome of a duplication request: 202 while the parent is processing,
`InternalError` after rollback, or 201 with the created child. -/
inductive DupResult where
  | processing
  | internalError (st : Store)
  | created (st : Store) (child : Project)
deriving DecidableEq, Repr

/-- The deep-copied child record before insert (routes.py 699-708): identity
fields stripped, `parent`/`version` set, fresh `thumbnails`. -/
def dupChild (par : Project) (cid : ℕ) : Project :=
  { par with
    id := cid
    storage_id := none
    parent := some par.id
    version := par.version + 1
    timeline := []
    preview := none }

/-- The `for thumbnail in timeline` copy loop (routes.py 754-771).  `svar` is
the Python local `storage_id`, which after any successful put holds the handle
of the most recently copied blob; on an injected fault the loop surfaces the
exception together with the current value of that local (which the rollback
handler passes to `delete_dir`). -/
def copyTimelineLoop (st : Store) (cid : ℕ) (svar : Handle) (ts : List Thumb)
    (i : ℕ) (fault : Option DupFault) :
    Except (Store × Handle) (Store × List Thumb) :=
  match ts with
  | [] => .ok (st, [])
  | t :: rest =>
    if fault = some (.putTimeline i) then
      .error (st, svar)
    else
      let pr := fsPut st cid
      match copyTimelineLoop pr.1 cid pr.2 rest (i + 1) fault with
      | .error e => .error e
      | .ok (st', nts) => .ok (st', { t with storage_id := pr.2 } :: nts)

/-- Tail of the duplication try-block: copy the timeline thumbnails, update
`thumbnails.timeline` as a whole if any were copied (routes.py 772-779), and
on exception run the rollback handler (routes.py 781-786): `delete_dir` on the
current `storage_id` local, then `delete_one` on the child record. -/
def finishTimeline (st : Store) (cid : ℕ) (svar : Handle) (child : Project)
    (ts : List Thumb) (fault : Option DupFault) : DupResult :=
  match copyTimelineLoop st cid svar ts 0 fault with
  | .error es => .internalError (dbDeleteOne (fsDeleteDir es.1 es.2) cid)
  | .ok (st', nts) =>
    if nts.isEmpty then
      .created st' child
    else
      .created (dbUpdate st' cid (fun q => { q with timeline := nts }))
        { child with timeline := nts }

/-- State after `insert_one` of the deep-copied child (routes.py 709); the
child record receives the fresh id `st.nextId`. -/
def dupInsert (st : Store) (p : Project) : Store :=
  { st with projects := st.projects ++ [dupChild p st.nextId], nextId := st.nextId + 1 }

/-- The primary-blob copy (routes.py 713-718): `app.fs.put` of the parent's
primary content into the child's subtree; returns the new store and the
handle held by the Python local `storage_id`. -/
def dupPrimary (st : Store) (p : Project) : Store × Handle :=
  fsPut (dupInsert st p) st.nextId

/-- The `find_one_and_update` that sets the child's `storage_id`
(routes.py 726-730). -/
def dupSetStorage (st : Store) (p : Project) : Store :=
  dbUpdate (dupPrimary st p).1 st.nextId
    (fun q => { q with storage_id := some (dupPrimary st p).2 })

/-- The child record as it reads after the `storage_id` update. -/
def dupChild1 (st : Store) (p : Project) : Project :=
  { dupChild p st.nextId with storage_id := some (dupPrimary st p).2 }

/-- The preview-blob copy (routes.py 734-741), performed when the parent has
a preview; the Python local `storage_id` is reassigned to the new handle. -/
def dupPreviewPut (st : Store) (p : Project) : Store × Handle :=
  fsPut (dupSetStorage st p) st.nextId

/-- The child's preview reference: the parent's preview with the copied
blob's handle (routes.py 742-743). -/
def dupNewPrev (st : Store) (p : Project) (prev : Preview) : Preview :=
  { prev with storage_id := (dupPreviewPut st p).2 }

/-- The `find_one_and_update` that sets `thumbnails.preview` on the child
(routes.py 745-751). -/
def dupSetPreview (st : Store) (p : Project) (prev : Preview) : Store :=
  dbUpdate (dupPreviewPut st p).1 st.nextId
    (fun q => { q with preview := some (dupNewPrev st p prev) })

/-- The child record as it reads after the preview update. -/
def dupChild2 (st : Store) (p : Project) (prev : Preview) : Project :=
  { dupChild1 st p with preview := some (dupNewPrev st p prev) }

/-- Endpoint `DuplicateProject.post` (routes.py 694-791) with an optional injected
fault.  Steps: processing check (695-696); deep-copy + insert of the child
(699-709); primary blob copy — on fault, delete the child record
(719-722); `storage_id` update; preview blob copy + `thumbnails.preview`
update when the parent has a preview (733-751); timeline copy (754-779);
rollback handler (781-786: `delete_dir` on the current `storage_id` local,
then `delete_one` of the child record) on any fault inside the second
try-block. -/
def duplicate (st : Store) (p : Project) (fault : Option DupFault) : DupResult :=
  if p.processing.video || p.processing.thumbnail_preview ||
      p.processing.thumbnails_timeline then
    .processing
  else if fault = some .putPrimary then
    .internalError (dbDeleteOne (dupInsert st p) st.nextId)
  else
    match p.preview with
    | some prev =>
      if fault = some .putPreview then
        .internalError
          (dbDeleteOne (fsDeleteDir (dupSetStorage st p) (dupPrimary st p).2) st.nextId)
      else
        finishTimeline (dupSetPreview st p prev) st.nextId (dupPreviewPut st p).2
          (dupChild2 st p prev) p.timeline fault
    | none =>
      finishTimeline (dupSetStorage st p) st.nextId (dupPrimary st p).2
        (dupChild1 st p) p.timeline fault

/-- Store sanity: every record id and every blob scope was allocated below the
fresh-id counter. -/
def WfStore (st : Store) : Prop :=
  (∀ q ∈ st.projects, q.id < st.nextId) ∧ (∀ b ∈ st.blobs, b.scope < st.nextId)

/-- No trace of the attempted child remains: record collection and blob store
read exactly as before the request. -/
def noChildTrace (st st' : Store) : Prop :=
  st'.projects = st.projects ∧ st'.blobs = st.blobs

/-- The blob exists and lives in the child's own subtree. -/
def ownsBlob (st : Store) (cid : ℕ) (h : Handle) : Prop :=
  h ∈ st.blobs ∧ h.scope = cid

/-- The child exists fully formed: its record is stored, its lineage fields
are set, and every blob it references (primary, preview, each timeline
thumbnail) physically exists in the child's own subtree and is none of the
blobs that existed before the request (a genuine copy). -/
def fullyFormed (par : Project) (st0 st' : Store) (child : Project) : Prop :=
  child ∈ st'.projects ∧
  child.parent = some par.id ∧
  child.version = par.version + 1 ∧
  (∃ h, child.storage_id = some h ∧ ownsBlob st' child.id h ∧ h ∉ st0.blobs) ∧
  child.timeline.length = par.timeline.length ∧
  (∀ t ∈ child.timeline, ownsBlob st' child.id t.storage_id ∧ t.storage_id ∉ st0.blobs) ∧
  child.preview.isSome = par.preview.isSome ∧
  (∀ pv, child.preview = some pv → ownsBlob st' child.id pv.storage_id ∧ pv.storage_id ∉ st0.blobs)

/-! ### Range streamer (`GetRawVideo.get`, routes.py 1114-1162) -/

/-- The delimiter set of the source's `re.split('[= | -]', video_range)`: the
character class contains `=`, space, `|` and `-`. -/
def rangeDelims : List Char := ['=', ' ', '|', '-']

/-- Split a character list at every delimiter occurrence, like `re.split` with
a single-character class (consecutive delimiters yield empty fields). -/
def splitDelims : List Char → List Char → List (List Char)
  | [], acc => [acc.reverse]
  | c :: cs, acc =>
    if c ∈ rangeDelims then acc.reverse :: splitDelims cs []
    else splitDelims cs (c :: acc)

/-- Numeric value of a digit string (the value Python's `int` returns on it). -/
def digitsVal (l : List Char) : ℕ :=
  l.foldl (fun n c => n * 10 + (c.toNat - 48)) 0

/-- Python `int(token)`: succeeds exactly on (non-empty) digit strings in the
forms the endpoint can receive; anything else raises (modelled as `none`). -/
def digitsToNat (l : List Char) : Option ℕ :=
  if l ≠ [] ∧ l.all Char.isDigit then some (digitsVal l) else none

/-- Parsing `start = int(re.split('[= | -]', video_range)[1])` (routes.py 1140). -/
def parseRangeStart (hdr : List Char) : Option ℕ :=
  match (splitDelims hdr []).get? 1 with
  | some tok => digitsToNat tok
  | none => none

/-- What the endpoint asks the asset store to stream: the full blob
(`app.fs.get`) or `app.fs.get_range(storage_id, start, chunksize)`. -/
inductive StreamSpec where
  | full (h : Option Handle)
  | range (h : Option Handle) (offset : ℤ) (len : ℤ)
deriving DecidableEq, Repr

/-- The response of the raw-video endpoint, restricted to the status and the
headers/stream the range-semantics claims are about.  `contentRange` is the
`(START, END, total)` triple of `Content-Range: bytes START-END/total`. -/
structure RawVideoResponse where
  status : ℕ
  contentRange : Option (ℤ × ℤ × ℤ)
  acceptRanges : Bool
  contentLength : Option ℤ
  stream : Option StreamSpec
deriving DecidableEq, Repr

/-- Endpoint `GetRawVideo.get` (routes.py 1132-1162): 202 while `processing.video`;
with a Range header, parse the start, compute `end = length - 1`,
`chunksize = end - start + 1` and stream that range with a 206; otherwise the
full blob with a 200.  `none` models the unhandled exception when `int()`
fails on the header. -/
def getRawVideo (p : Project) (videoRange : Option (List Char)) :
    Option RawVideoResponse :=
  if p.processing.video then
    some ⟨202, none, false, none, none⟩
  else
    let length : ℤ := (p.metadata.size : ℤ)
    match videoRange with
    | some hdr =>
      match parseRangeStart hdr with
      | some s =>
        let start : ℤ := (s : ℤ)
        let endPos : ℤ := length - 1
        let chunksize : ℤ := endPos - start + 1
        some ⟨206, some (start, endPos, length), true, some chunksize,
          some (.range p.storage_id start chunksize)⟩
      | none => none
    | none =>
      some ⟨200, none, false, some length, some (.full p.storage_id)⟩

/-- Header characters "bytes=START-END" (START, END spliced in as character
lists); END may be any client-supplied tail. -/
def closedRangeHdr (s e : List Char) : List Char :=
  ['b', 'y', 't', 'e', 's'] ++ ('=' :: (s ++ ('-' :: e)))

/-- Header characters of the open-ended form "bytes=START-". -/
def openRangeHdr (s : List Char) : List Char := closedRangeHdr s []

/-! ### Thumbnail endpoints (`RetrieveOrCreateThumbnails`, routes.py 794-1110) -/

/-- A dispatched thumbnail job: `generate_timeline_thumbnails` with the
requested amount, or `generate_preview_thumbnail` with the capture position. -/
inductive ThumbJob where
  | timeline (amount : ℕ)
  | preview (position : ℚ)
deriving DecidableEq, Repr

/-- Response of the thumbnail GET handlers. -/
inductive ThumbResponse where
  | processing202
  | cachedTimeline (ts : List Thumb)
  | cachedPreview (pv : Preview)
  | badRequest
  | dispatched
deriving DecidableEq, Repr

/-- Handler `_get_timeline_thumbnails` (routes.py 1056-1080): busy check, idempotent
cache hit when `amount` equals the cached count, else flag set + dispatch.
Returns the response, the record after the request, and the dispatched job. -/
def getTimelineThumbnails (p : Project) (amount : ℕ) :
    ThumbResponse × Project × Option ThumbJob :=
  if p.processing.thumbnails_timeline then
    (.processing202, p, none)
  else if amount = p.timeline.length then
    (.cachedTimeline p.timeline, p, none)
  else
    (.dispatched,
      { p with processing := { p.processing with thumbnails_timeline := true } },
      some (.timeline amount))

/-- The trailing duration check + dispatch of `_get_preview_thumbnail`
(routes.py 1094-1110). -/
def previewDispatchOrFail (p : Project) (position : ℚ) :
    ThumbResponse × Project × Option ThumbJob :=
  if p.metadata.duration < position then
    (.badRequest, p, none)
  else
    (.dispatched,
      { p with processing := { p.processing with thumbnail_preview := true } },
      some (.preview position))

/-- Handler `_get_preview_thumbnail` (routes.py 1082-1110): busy check; cached-preview
return when the stored position equals the requested one; `BadRequest` when
the position exceeds the duration; else flag set + dispatch. -/
def getPreviewThumbnail (p : Project) (position : ℚ) :
    ThumbResponse × Project × Option ThumbJob :=
  if p.processing.thumbnail_preview then
    (.processing202, p, none)
  else
    match p.preview with
    | some pv =>
      if pv.position = .num position then (.cachedPreview pv, p, none)
      else previewDispatchOrFail p position
    | none => previewDispatchOrFail p position

/-! ### Custom preview upload (`RetrieveOrCreateThumbnails.post`, routes.py 1000-1054) -/

/-- The fields of the uploaded image recorded in the new preview reference
(filename derived from the project, metadata probed from the upload). -/
structure UploadMeta where
  filename : ℕ
  mimetype : ℕ
  width : ℕ
  height : ℕ
  size : ℕ
deriving DecidableEq, Repr

/-- State after `app.fs.put` of the uploaded image (routes.py 1022-1029); the
destination path is deterministic, so the handle may coincide with the
previously stored one. -/
def uploadPutState (st : Store) (hNew : Handle) : Store := fsPutAt st hNew

/-- State after the "delete old file" step (routes.py 1031-1034): when a
preview reference exists and the new handle differs from it, the superseded
blob is deleted — before the record is updated. -/
def uploadDeleteState (st : Store) (p : Project) (hNew : Handle) : Store :=
  let st1 := uploadPutState st hNew
  match p.preview with
  | some prev => if hNew ≠ prev.storage_id then fsDelete st1 prev.storage_id else st1
  | none => st1

/-- The new `thumbnails.preview` value written by the record update
(routes.py 1037-1051). -/
def uploadNewPreview (hNew : Handle) (m : UploadMeta) : Preview :=
  ⟨m.filename, m.mimetype, m.width, m.height, m.size, hNew, .custom⟩

/-- State after the `find_one_and_update` recording the new reference. -/
def uploadFinalState (st : Store) (p : Project) (hNew : Handle) (m : UploadMeta) : Store :=
  dbUpdate (uploadDeleteState st p hNew) p.id
    (fun q => { q with preview := some (uploadNewPreview hNew m) })

/-- The sequence of store states the upload endpoint passes through after the
busy check: initial, after the blob put, after the delete of the superseded
blob, after the record update.  While busy (202) the store is untouched. -/
def uploadCustomPreviewStates (st : Store) (p : Project) (hNew : Handle)
    (m : UploadMeta) : List Store :=
  if p.processing.thumbnail_preview then [st]
  else [st, uploadPutState st hNew, uploadDeleteState st p hNew,
    uploadFinalState st p hNew m]

/-- Some stored record references a preview blob that is absent from the blob
store (a live reference pointing at deleted content). -/
def danglingPreviewRef (st : Store) : Bool :=
  st.projects.any (fun q =>
    match q.preview with
    | some pv => decide (pv.storage_id ∉ st.blobs)
    | none => false)

/-! ### Concrete inputs used by witnesses and counterexamples -/

/-- A policy configuration with interpolation disallowed
(`MIN_TRIM_DURATION = 2`). -/
def exCfg : Config := ⟨2, 320, 180, 4096, 2160, false, 600⟩

/-- The configuration of the spec's scale examples: interpolation allowed,
`INTERPOLATION_LIMIT = 600`. -/
def exCfgInterp : Config := ⟨2, 320, 180, 4096, 2160, true, 600⟩

/-- Metadata with width 640 (duration 30 s, content length 1000 bytes). -/
def exMd640 : Metadata := ⟨30, 640, 360, 1000⟩

/-- Metadata with width 400. -/
def exMd400 : Metadata := ⟨30, 400, 300, 1000⟩

/-- A project with no operation in flight (used by the edit endpoint
witnesses). -/
def exEditP : Project :=
  ⟨0, 1, 2, some ⟨0, 0⟩, exMd640, 1, none, ⟨false, false, false⟩, [], none⟩

/-- A project whose raw video is served (size 1000, not processing). -/
def exRawP : Project :=
  ⟨0, 1, 2, some ⟨0, 0⟩, exMd640, 1, none, ⟨false, false, false⟩, [], none⟩

/-- A project with two cached timeline thumbnails and no lock held. -/
def exTimelineP : Project :=
  ⟨0, 1, 2, some ⟨0, 0⟩, exMd640, 1, none, ⟨false, false, false⟩,
    [⟨5, 6, 160, 90, 100, ⟨0, 1⟩⟩, ⟨7, 6, 160, 90, 100, ⟨0, 2⟩⟩], none⟩

/-- A project with a cached preview captured at position 5 (duration 30). -/
def exPrevP : Project :=
  ⟨0, 1, 2, some ⟨0, 0⟩, exMd640, 1, none, ⟨false, false, false⟩, [],
    some ⟨7, 8, 640, 360, 200, ⟨0, 2⟩, .num 5⟩⟩

/-- A parent project for duplication: primary blob, one timeline thumbnail
and a preview, all under scope 0. -/
def exParent : Project :=
  ⟨0, 1, 2, some ⟨0, 0⟩, exMd640, 1, none, ⟨false, false, false⟩,
    [⟨5, 6, 160, 90, 100, ⟨0, 1⟩⟩],
    some ⟨7, 8, 640, 360, 200, ⟨0, 2⟩, .num 3⟩⟩

/-- The store holding `exParent` and its three blobs. -/
def exStore : Store := ⟨[exParent], [⟨0, 0⟩, ⟨0, 1⟩, ⟨0, 2⟩], 1, 3⟩

/-- Store for the custom-preview-upload scenario: one project referencing
preview blob `⟨0, 2⟩`. -/
def exUpStore : Store := ⟨[exPrevP], [⟨0, 0⟩, ⟨0, 2⟩], 1, 3⟩

/-- The handle the deterministic upload path assigns to the new custom
preview (differs from the stored `⟨0, 2⟩`). -/
def exUpNewHandle : Handle := ⟨0, 7⟩

/-- Probed metadata of the uploaded preview image. -/
def exUpMeta : UploadMeta := ⟨9, 8, 640, 360, 300⟩

/-! ## Theorems -/

/-- C2 counterexample: the claim says acquisition is an atomic conditional
update so that of two concurrent attempts exactly one succeeds.  Under the
interleaving in which both clients read the flag (reading `false`) before
either writes, both attempts succeed — the write is based on the earlier
client-side read, so the claim is false. -/
theorem tryAcquire_both_succeed_counterexample :
    succeeded (runSched initTwo [true, false, true, false]).c1 = true ∧
    succeeded (runSched initTwo [true, false, true, false]).c2 = true ∧
    exactlyOneSucceeds (runSched initTwo [true, false, true, false]) = false := by
  decide

/-- C2 amended: acquisition is a client-side read followed by an unconditional
`$set`: whenever the snapshot read `false`, the write step sets the stored
flag to `true` and reports success regardless of the flag's current stored
value; of two concurrent attempts on a free flag, each serialized schedule
has exactly one success, while the schedule in which both read before either
writes has both succeed. -/
theorem tryAcquire_check_then_act :
    (∀ flag : Bool, (acquireStep flag ⟨1, false, none⟩).1 = true ∧
      (acquireStep flag ⟨1, false, none⟩).2.result = some true) ∧
    exactlyOneSucceeds (runSched initTwo [true, true, false, false]) = true ∧
    exactlyOneSucceeds (runSched initTwo [false, false, true, true]) = true ∧
    (succeeded (runSched initTwo [false, true, false, true]).c1 = true ∧
      succeeded (runSched initTwo [false, true, false, true]).c2 = true) := by
  decide

/-- C3 counterexample: a trim with `end - start` exactly equal to
`MIN_TRIM_DURATION` satisfies the claim's acceptance condition
(`end - start ≥ MIN_TRIM_DURATION`, `end ≤ D`, not the whole video), yet the
code rejects it: line 609 compares with `<=`, not `<`. -/
theorem trim_min_boundary_counterexample :
    ((2 : ℚ) - 0 ≥ exCfg.MIN_TRIM_DURATION ∧ (2 : ℚ) ≤ exMd640.duration ∧
      ¬((0 : ℚ) = 0 ∧ (2 : ℚ) = exMd640.duration)) ∧
    validateTrim exCfg exMd640 ⟨0, 2⟩ ≠ .ok () := by
  constructor
  · norm_num [exCfg, exMd640]
  · intro hcontra
    norm_num [validateTrim, exCfg, exMd640] at hcontra
    exact absurd hcontra (by decide)

/-- C3 amended: a trim is rejected if `start ≥ end`, or
`end - start ≤ MIN_TRIM_DURATION` (boundary included), or `end > D`, or it
spans the whole video; it passes trim validation whenever
`end - start > MIN_TRIM_DURATION` (strictly), `end ≤ D`, and it does not span
the whole video. -/
theorem trim_validation_characterization (cfg : Config) (md : Metadata) (t : Trim)
    (hmin : 0 ≤ cfg.MIN_TRIM_DURATION) :
    ((t.start ≥ t.end_ ∨ t.end_ - t.start ≤ cfg.MIN_TRIM_DURATION ∨
        t.end_ > md.duration ∨ (t.start = 0 ∧ t.end_ = md.duration)) →
      validateTrim cfg md t ≠ .ok ()) ∧
    ((cfg.MIN_TRIM_DURATION < t.end_ - t.start ∧ t.end_ ≤ md.duration ∧
        ¬(t.start = 0 ∧ t.end_ = md.duration)) →
      validateTrim cfg md t = .ok ()) := by
  constructor
  · intro h hcontra
    unfold validateTrim at hcontra
    split_ifs at hcontra with h1 h2 h3 h4
    push_neg at h2
    rcases h with h | h | h | h
    · exact h1 h
    · exact absurd h (by linarith [h2.1])
    · exact h3 h
    · exact h4 h
  · rintro ⟨ha, hb, hc⟩
    unfold validateTrim
    split_ifs with h1 h2 h3
    · linarith
    · rcases h2 with h2 | h2 <;> linarith
    · linarith
    · rfl

/-- C3 witness: with `MIN_TRIM_DURATION = 2` and duration 30, the trim
`[1, 4]` (length 3 > 2) passes validation. -/
theorem trim_validation_characterization_witness :
    (0 : ℚ) ≤ exCfg.MIN_TRIM_DURATION ∧
    validateTrim exCfg exMd640 ⟨1, 4⟩ = .ok () :=
  ⟨by norm_num [exCfg],
    (trim_validation_characterization exCfg exMd640 ⟨1, 4⟩ (by norm_num [exCfg])).2
      (by norm_num [exCfg, exMd640])⟩

/-- C4: scale validation fails exactly when `scale` equals the effective
width, or exceeds it with interpolation disallowed, or exceeds it with
interpolation allowed but the effective width already at or beyond
`INTERPOLATION_LIMIT`.  In particular, with interpolation allowed and limit
600, scale 800 is rejected at effective width 640 and accepted at effective
width 400. -/
theorem scale_validation_characterization :
    (∀ (cfg : Config) (md : Metadata) (crop : Option Crop) (s : ℤ),
      validateScale cfg md crop s ≠ .ok () ↔
        (s = effectiveWidth md crop ∨
         (s > effectiveWidth md crop ∧ cfg.ALLOW_INTERPOLATION = false) ∨
         (s > effectiveWidth md crop ∧ cfg.ALLOW_INTERPOLATION = true ∧
           effectiveWidth md crop ≥ cfg.INTERPOLATION_LIMIT))) ∧
    validateScale exCfgInterp exMd640 none 800 ≠ .ok () ∧
    validateScale exCfgInterp exMd400 none 800 = .ok () := by
  refine ⟨?_, by decide, by decide⟩
  intro cfg md crop s
  constructor
  · intro hne
    unfold validateScale at hne
    split_ifs at hne with h1 h2 h3
    · exact .inl h1
    · exact .inr (.inl ⟨h2.2, h2.1⟩)
    · exact .inr (.inr ⟨h3.2.1, h3.1, h3.2.2⟩)
    · exact absurd rfl hne
  · intro h hcontra
    unfold validateScale at hcontra
    split_ifs at hcontra with h1 h2 h3
    rcases h with h | h | h
    · exact h1 h
    · exact h2 ⟨h.2, h.1⟩
    · exact h3 ⟨h.2.1, h.1, h.2.2⟩

/-- C7: on a project whose preview lock is free and whose cached preview (if
any) was captured at a different position, a capture-by-position request
fails with `BadRequest` — neither acquiring the lock nor dispatching a job —
exactly when the requested position exceeds the duration; otherwise it
acquires the lock and dispatches a capture job for that position. -/
theorem preview_position_validation (p : Project) (position : ℚ)
    (hflag : p.processing.thumbnail_preview = false)
    (hnc : ∀ pv, p.preview = some pv → pv.position ≠ .num position) :
    (p.metadata.duration < position →
      getPreviewThumbnail p position = (.badRequest, p, none)) ∧
    (¬p.metadata.duration < position →
      getPreviewThumbnail p position =
        (.dispatched,
          { p with processing := { p.processing with thumbnail_preview := true } },
          some (.preview position))) := by
  have hred : getPreviewThumbnail p position = previewDispatchOrFail p position := by
    unfold getPreviewThumbnail
    cases hp : p.preview with
    | none => simp [hflag]
    | some pv => simp [hflag, hnc pv hp]
  refine ⟨fun h => ?_, fun h => ?_⟩ <;> rw [hred] <;> simp [previewDispatchOrFail, h]

/-- C7 witness: duration 30, requested position 50: rejected without lock or
dispatch. -/
theorem preview_position_validation_witness :
    exPrevP.processing.thumbnail_preview = false ∧
    exPrevP.metadata.duration < 50 ∧
    getPreviewThumbnail exPrevP 50 = (.badRequest, exPrevP, none) :=
  ⟨by decide, by decide,
    (preview_position_validation exPrevP 50 (by decide)
      (fun pv h => by
        have : pv = ⟨7, 8, 640, 360, 200, ⟨0, 2⟩, .num 5⟩ := by
          cases h
          rfl
        subst this
        decide)).1 (by decide)⟩

/-- C8: with the timeline lock free and `amount` equal to the cached count,
the request returns the cached sequence unchanged, dispatches nothing and
leaves the record unmodified; issuing the same request again returns the
identical result. -/
theorem timeline_cache_hit (p : Project) (amount : ℕ)
    (hflag : p.processing.thumbnails_timeline = false)
    (hamt : amount = p.timeline.length) :
    getTimelineThumbnails p amount = (.cachedTimeline p.timeline, p, none) ∧
    getTimelineThumbnails (getTimelineThumbnails p amount).2.1 amount =
      getTimelineThumbnails p amount := by
  have h1 : getTimelineThumbnails p amount = (.cachedTimeline p.timeline, p, none) := by
    unfold getTimelineThumbnails
    simp [hflag, hamt]
  exact ⟨h1, by rw [h1]; exact h1⟩

/-- C8 witness: requesting `amount = 2` on a project caching two timeline
thumbnails. -/
theorem timeline_cache_hit_witness :
    exTimelineP.processing.thumbnails_timeline = false ∧
    2 = exTimelineP.timeline.length ∧
    getTimelineThumbnails exTimelineP 2 =
      (.cachedTimeline exTimelineP.timeline, exTimelineP, none) :=
  ⟨by decide, by decide, (timeline_cache_hit exTimelineP 2 (by decide) (by decide)).1⟩

/-- C10: with `processing.video` false, an edit request mentioning none of
trim/rotate/scale/crop passes both schema and custom validation, sets the
video flag, and dispatches an `edit_video` job with an empty change set. -/
theorem put_empty_request (cfg : Config) (p : Project)
    (hflag : p.processing.video = false) :
    schemaValid cfg emptyEditDoc = true ∧
    validateEditDoc cfg p.metadata emptyEditDoc = .ok () ∧
    put cfg p emptyEditDoc = ⟨.ok, setVideoFlag p, some emptyEditDoc⟩ := by
  refine ⟨rfl, rfl, ?_⟩
  unfold put
  simp [hflag]
  rfl

/-- C10 witness: the empty edit request on a concrete idle project. -/
theorem put_empty_request_witness :
    exEditP.processing.video = false ∧
    put exCfg exEditP emptyEditDoc = ⟨.ok, setVideoFlag exEditP, some emptyEditDoc⟩ :=
  ⟨by decide, (put_empty_request exCfg exEditP (by decide)).2.2⟩

/-- Splitting a delimiter-free prefix followed by a delimiter yields that
prefix (appended to the accumulator) as one field. -/
theorem splitDelims_append_delim (l : List Char) (d : Char) (rest : List Char)
    (hd : d ∈ rangeDelims) :
    ∀ acc, (∀ c ∈ l, c ∉ rangeDelims) →
      splitDelims (l ++ d :: rest) acc = (acc.reverse ++ l) :: splitDelims rest [] := by
  induction l with
  | nil =>
    intro acc _
    simp [splitDelims, hd]
  | cons c cs ih =>
    intro acc hl
    have hc : c ∉ rangeDelims := hl c (List.mem_cons_self c cs)
    simp only [List.cons_append, splitDelims, if_neg hc, List.append_eq]
    rw [ih (c :: acc) (fun x hx => hl x (List.mem_cons_of_mem c hx))]
    simp

/-- A digit is not one of the range-header delimiters. -/
theorem digit_not_delim (c : Char) (h : c.isDigit) : c ∉ rangeDelims := by
  intro hmem
  simp only [rangeDelims, List.mem_cons, List.not_mem_nil, or_false] at hmem
  rcases hmem with rfl | rfl | rfl | rfl <;> exact absurd h (by decide)

/-- Python `int()` on a non-empty digit string yields its numeric value. -/
theorem digitsToNat_of_digits (s : List Char) (hne : s ≠ [])
    (hdig : ∀ c ∈ s, c.isDigit) : digitsToNat s = some (digitsVal s) := by
  unfold digitsToNat
  rw [if_pos ⟨hne, List.all_eq_true.mpr (fun c hc => hdig c hc)⟩]

/-- The parsed range start of a "bytes=START-END" header is the numeric value
of START, for any client-supplied END tail: only the second split field is
read. -/
theorem parseRangeStart_closed (s e : List Char) (hne : s ≠ [])
    (hdig : ∀ c ∈ s, c.isDigit) :
    parseRangeStart (closedRangeHdr s e) = some (digitsVal s) := by
  unfold parseRangeStart closedRangeHdr
  rw [splitDelims_append_delim ['b', 'y', 't', 'e', 's'] '=' (s ++ ('-' :: e))
    (by decide) [] (by decide)]
  rw [splitDelims_append_delim s '-' e (by decide) []
    (fun c hc => digit_not_delim c (hdig c hc))]
  simpa using digitsToNat_of_digits s hne hdig

/-- C5: with `processing.video` false and content length `L`, a request with
no Range header gets a 200 carrying the full blob with `Content-Length = L`;
a request with header "bytes=START-" gets a 206 with
`Content-Range: bytes START-(L-1)/L`, `Accept-Ranges: bytes`,
`Content-Length = (L-1) - START + 1`, streaming exactly that many bytes from
offset START. -/
theorem raw_video_range_semantics (p : Project) (s : List Char)
    (hflag : p.processing.video = false) (hne : s ≠ [])
    (hdig : ∀ c ∈ s, c.isDigit) :
    getRawVideo p none =
      some ⟨200, none, false, some ((p.metadata.size : ℤ)),
        some (.full p.storage_id)⟩ ∧
    getRawVideo p (some (openRangeHdr s)) =
      some ⟨206,
        some (((digitsVal s : ℤ)), (p.metadata.size : ℤ) - 1, (p.metadata.size : ℤ)),
        true,
        some (((p.metadata.size : ℤ) - 1) - (digitsVal s : ℤ) + 1),
        some (.range p.storage_id (digitsVal s : ℤ)
          (((p.metadata.size : ℤ) - 1) - (digitsVal s : ℤ) + 1))⟩ := by
  constructor
  · unfold getRawVideo
    simp [hflag]
  · unfold getRawVideo openRangeHdr
    simp [hflag, parseRangeStart_closed s [] hne hdig]

/-- C5 witness: content length 1000 and header "bytes=200-" yield
`Content-Range: bytes 200-999/1000`, `Content-Length: 800`, status 206,
streaming 800 bytes from offset 200; without a header, status 200 with
`Content-Length: 1000`. -/
theorem raw_video_range_semantics_witness :
    exRawP.processing.video = false ∧
    openRangeHdr ['2', '0', '0'] = "bytes=200-".toList ∧
    getRawVideo exRawP (some (openRangeHdr ['2', '0', '0'])) =
      some ⟨206, some (200, 999, 1000), true, some 800,
        some (.range (some ⟨0, 0⟩) 200 800)⟩ ∧
    getRawVideo exRawP none =
      some ⟨200, none, false, some 1000, some (.full (some ⟨0, 0⟩))⟩ := by
  refine ⟨by decide, by decide, ?_, ?_⟩
  · exact (raw_video_range_semantics exRawP ['2', '0', '0'] (by decide) (by decide)
      (by decide)).2
  · exact (raw_video_range_semantics exRawP ['2', '0', '0'] (by decide) (by decide)
      (by decide)).1

/-- C9: on a bounded header "bytes=START-END" the client-supplied END is
ignored: the response is identical to the open-ended "bytes=START-" form,
serving bytes START through L-1 with `Content-Length = L - START`. -/
theorem raw_video_range_end_ignored (p : Project) (s e : List Char)
    (hflag : p.processing.video = false) (hne : s ≠ [])
    (hdig : ∀ c ∈ s, c.isDigit) :
    getRawVideo p (some (closedRangeHdr s e)) =
      getRawVideo p (some (openRangeHdr s)) ∧
    getRawVideo p (some (closedRangeHdr s e)) =
      some ⟨206,
        some (((digitsVal s : ℤ)), (p.metadata.size : ℤ) - 1, (p.metadata.size : ℤ)),
        true,
        some ((p.metadata.size : ℤ) - (digitsVal s : ℤ)),
        some (.range p.storage_id (digitsVal s : ℤ)
          ((p.metadata.size : ℤ) - (digitsVal s : ℤ)))⟩ := by
  have harith : ((p.metadata.size : ℤ) - 1) - (digitsVal s : ℤ) + 1 =
      (p.metadata.size : ℤ) - (digitsVal s : ℤ) := by ring
  constructor
  · unfold getRawVideo
    simp [hflag, openRangeHdr, parseRangeStart_closed s e hne hdig,
      parseRangeStart_closed s [] hne hdig]
  · unfold getRawVideo
    simp [hflag, parseRangeStart_closed s e hne hdig, harith]

/-- C9 witness: "bytes=200-500" is served exactly like "bytes=200-": END is
ignored and 800 bytes from offset 200 are streamed. -/
theorem raw_video_range_end_ignored_witness :
    closedRangeHdr ['2', '0', '0'] ['5', '0', '0'] = "bytes=200-500".toList ∧
    getRawVideo exRawP (some (closedRangeHdr ['2', '0', '0'] ['5', '0', '0'])) =
      getRawVideo exRawP (some (openRangeHdr ['2', '0', '0'])) ∧
    getRawVideo exRawP (some (closedRangeHdr ['2', '0', '0'] ['5', '0', '0'])) =
      some ⟨206, some (200, 999, 1000), true, some 800,
        some (.range (some ⟨0, 0⟩) 200 800)⟩ := by
  refine ⟨by decide, ?_, ?_⟩
  · exact (raw_video_range_end_ignored exRawP ['2', '0', '0'] ['5', '0', '0']
      (by decide) (by decide) (by decide)).1
  · exact (raw_video_range_end_ignored exRawP ['2', '0', '0'] ['5', '0', '0']
      (by decide) (by decide) (by decide)).2

/-- Removing the blobs of the child scope from a store whose blobs are the
original ones (foreign scopes) plus child-scoped additions restores exactly
the original blobs. -/
theorem filter_scope_append (l extra : List Handle) (cid : ℕ)
    (hl : ∀ b ∈ l, b.scope ≠ cid) (he : ∀ b ∈ extra, b.scope = cid) :
    (l ++ extra).filter (fun b => decide (b.scope ≠ cid)) = l := by
  rw [List.filter_append]
  rw [List.filter_eq_self.mpr (fun a ha => by simpa using hl a ha)]
  rw [List.filter_eq_nil_iff.mpr (fun a ha => by simp [he a ha])]
  rw [List.append_nil]

/-- Deleting the record with the child id from the collection of original
records plus the child restores exactly the original records. -/
theorem filter_id_append (l : List Project) (c : Project) (cid : ℕ)
    (hl : ∀ q ∈ l, q.id ≠ cid) (hc : c.id = cid) :
    (l ++ [c]).filter (fun q => decide (q.id ≠ cid)) = l := by
  rw [List.filter_append]
  rw [List.filter_eq_self.mpr (fun a ha => by simpa using hl a ha)]
  simp [hc]

/-- An id-targeted update on the original records plus the child touches only
the child. -/
theorem map_update_append (l : List Project) (c : Project) (cid : ℕ)
    (f : Project → Project) (hl : ∀ q ∈ l, q.id ≠ cid) (hc : c.id = cid) :
    (l ++ [c]).map (fun q => if q.id = cid then f q else q) = l ++ [f c] := by
  rw [List.map_append]
  congr 1
  · calc l.map (fun q => if q.id = cid then f q else q)
        = l.map id := List.map_congr_left (fun a ha => if_neg (hl a ha))
      _ = l := List.map_id l
  · simp [hc]

/-- When the timeline copy loop surfaces an exception, it has not touched the
records, the `storage_id` local still holds a child-scoped handle, and the
blob store is the incoming one plus child-scoped additions. -/
theorem copyTimelineLoop_error_spec (ts : List Thumb) :
    ∀ (st : Store) (cid : ℕ) (svar : Handle) (i : ℕ) (fault : Option DupFault)
      (st' : Store) (svar' : Handle),
      svar.scope = cid →
      copyTimelineLoop st cid svar ts i fault = .error (st', svar') →
      st'.projects = st.projects ∧ st'.nextId = st.nextId ∧ svar'.scope = cid ∧
      ∃ extra, st'.blobs = st.blobs ++ extra ∧ ∀ b ∈ extra, b.scope = cid := by
  induction ts with
  | nil =>
    intro st cid svar i fault st' svar' hs h
    exact absurd h (by simp [copyTimelineLoop])
  | cons t rest ih =>
    intro st cid svar i fault st' svar' hs h
    unfold copyTimelineLoop at h
    split_ifs at h with hf
    · injection h with h2
      injection h2 with h3 h4
      subst h3
      subst h4
      exact ⟨rfl, rfl, hs, [], by simp, by simp⟩
    · simp only at h
      cases hrec : copyTimelineLoop (fsPut st cid).1 cid (fsPut st cid).2 rest (i + 1) fault with
      | error e =>
        rw [hrec] at h
        injection h with h2
        subst h2
        obtain ⟨hpj, hni, hsc, extra, hbl, hex⟩ :=
          ih (fsPut st cid).1 cid (fsPut st cid).2 (i + 1) fault st' svar' rfl hrec
        refine ⟨hpj, hni, hsc, ⟨cid, st.nextSerial⟩ :: extra, ?_, ?_⟩
        · rw [hbl]
          simp [fsPut]
        · intro b hb
          rcases List.mem_cons.mp hb with rfl | hb
          · rfl
          · exact hex b hb
      | ok val =>
        rw [hrec] at h
        exact absurd h (by simp)

/-- When the timeline copy loop succeeds, the records are untouched, one copy
per source thumbnail was made, the blob store is the incoming one plus
child-scoped additions, and every produced thumbnail references an existing
child-scoped blob. -/
theorem copyTimelineLoop_ok_spec (ts : List Thumb) :
    ∀ (st : Store) (cid : ℕ) (svar : Handle) (i : ℕ) (fault : Option DupFault)
      (st' : Store) (nts : List Thumb),
      copyTimelineLoop st cid svar ts i fault = .ok (st', nts) →
      st'.projects = st.projects ∧ st'.nextId = st.nextId ∧
      nts.length = ts.length ∧
      (∃ extra, st'.blobs = st.blobs ++ extra ∧ ∀ b ∈ extra, b.scope = cid) ∧
      (∀ u ∈ nts, u.storage_id ∈ st'.blobs ∧ u.storage_id.scope = cid) := by
  induction ts with
  | nil =>
    intro st cid svar i fault st' nts h
    unfold copyTimelineLoop at h
    injection h with h2
    injection h2 with h3 h4
    subst h3
    subst h4
    exact ⟨rfl, rfl, rfl, ⟨[], by simp, by simp⟩, by simp⟩
  | cons t rest ih =>
    intro st cid svar i fault st' nts h
    unfold copyTimelineLoop at h
    split_ifs at h with hf
    case _ =>
      simp only at h
      cases hrec : copyTimelineLoop (fsPut st cid).1 cid (fsPut st cid).2 rest (i + 1) fault with
      | error e =>
        rw [hrec] at h
        exact absurd h (by simp)
      | ok val =>
        rw [hrec] at h
        injection h with h2
        injection h2 with h3 h4
        subst h3
        obtain ⟨hpj, hni, hlen, ⟨extra, hbl, hex⟩, hthumbs⟩ :=
          ih (fsPut st cid).1 cid (fsPut st cid).2 (i + 1) fault val.1 val.2 hrec
        have hblobs' : val.1.blobs = st.blobs ++ (⟨cid, st.nextSerial⟩ :: extra) := by
          rw [hbl]
          simp [fsPut]
        refine ⟨hpj, hni, ?_, ⟨⟨cid, st.nextSerial⟩ :: extra, hblobs', ?_⟩, ?_⟩
        · rw [← h4]
          simp [hlen]
        · intro b hb
          rcases List.mem_cons.mp hb with rfl | hb
          · rfl
          · exact hex b hb
        · intro u hu
          rw [← h4] at hu
          rcases List.mem_cons.mp hu with rfl | hu
          · refine ⟨?_, rfl⟩
            rw [hblobs']
            exact List.mem_append_right _ (List.mem_cons_self _ _)
          · exact hthumbs u hu

/-- Behaviour of the tail of the duplication try-block over a store holding
the original records and blobs plus the partially-built child: on an injected
fault the rollback restores exactly the original records and blobs; on
success the child record (with the copied timeline written through) is
appended and every copied thumbnail references an existing child-scoped
blob. -/
theorem finishTimeline_spec (orig st : Store) (cid : ℕ) (svar : Handle)
    (child : Project) (ts : List Thumb) (fault : Option DupFault)
    (hsv : svar.scope = cid)
    (hproj : st.projects = orig.projects ++ [child])
    (hchild : child.id = cid)
    (hctl : child.timeline = [])
    (horig : ∀ q ∈ orig.projects, q.id ≠ cid)
    (hblobs : ∃ ex, st.blobs = orig.blobs ++ ex ∧ ∀ b ∈ ex, b.scope = cid)
    (hob : ∀ b ∈ orig.blobs, b.scope ≠ cid) :
    (∀ st1, finishTimeline st cid svar child ts fault = .internalError st1 →
      st1.projects = orig.projects ∧ st1.blobs = orig.blobs) ∧
    (∀ st1 child1, finishTimeline st cid svar child ts fault = .created st1 child1 →
      st1.projects = orig.projects ++ [child1] ∧
      child1.id = cid ∧
      child1.storage_id = child.storage_id ∧
      child1.preview = child.preview ∧
      child1.parent = child.parent ∧
      child1.version = child.version ∧
      child1.timeline.length = ts.length ∧
      (∀ u ∈ child1.timeline, u.storage_id ∈ st1.blobs ∧ u.storage_id.scope = cid) ∧
      (∃ ex2, st1.blobs = st.blobs ++ ex2)) := by
  obtain ⟨ex, hex, hexs⟩ := hblobs
  constructor
  · intro st1 h
    unfold finishTimeline at h
    cases hloop : copyTimelineLoop st cid svar ts 0 fault with
    | error es =>
      rw [hloop] at h
      injection h with h2
      subst h2
      obtain ⟨hpj, hni, hsc, extra, hbl, hexx⟩ :=
        copyTimelineLoop_error_spec ts st cid svar 0 fault es.1 es.2 hsv hloop
      constructor
      · show es.1.projects.filter (fun q => decide (q.id ≠ cid)) = orig.projects
        rw [hpj, hproj]
        exact filter_id_append _ _ _ horig hchild
      · show es.1.blobs.filter (fun b => decide (b.scope ≠ es.2.scope)) = orig.blobs
        rw [hsc, hbl, hex, List.append_assoc]
        refine filter_scope_append _ _ _ hob ?_
        intro b hb
        rcases List.mem_append.mp hb with hb | hb
        · exact hexs b hb
        · exact hexx b hb
    | ok val =>
      obtain ⟨st2, nts2⟩ := val
      rw [hloop] at h
      simp only at h
      split_ifs at h
  · intro st1 child1 h
    unfold finishTimeline at h
    cases hloop : copyTimelineLoop st cid svar ts 0 fault with
    | error es =>
      rw [hloop] at h
      exact absurd h (by simp)
    | ok val =>
      obtain ⟨st2, nts2⟩ := val
      rw [hloop] at h
      simp only at h
      obtain ⟨hpj, hni, hlen, ⟨extra, hbl, hexx⟩, hthumbs⟩ :=
        copyTimelineLoop_ok_spec ts st cid svar 0 fault st2 nts2 hloop
      by_cases hemp : nts2.isEmpty
      · rw [if_pos hemp] at h
        injection h with h2 h3
        subst h2
        subst h3
        have hnil : nts2 = [] := List.isEmpty_iff.mp hemp
        refine ⟨?_, hchild, rfl, rfl, rfl, rfl, ?_, ?_, ⟨extra, hbl⟩⟩
        · rw [hpj, hproj]
        · rw [hctl]
          rw [hnil] at hlen
          simpa using hlen
        · intro u hu
          rw [hctl] at hu
          simp at hu
      · rw [if_neg hemp] at h
        injection h with h2 h3
        subst h2
        subst h3
        refine ⟨?_, hchild, rfl, rfl, rfl, rfl, ?_, ?_, ⟨extra, hbl⟩⟩
        · show st2.projects.map
            (fun q => if q.id = cid then { q with timeline := nts2 } else q) =
              orig.projects ++ [{ child with timeline := nts2 }]
          rw [hpj, hproj]
          exact map_update_append _ _ _ _ horig hchild
        · exact hlen
        · exact hthumbs

/-- The tail of the duplication try-block never answers "processing". -/
theorem finishTimeline_ne_processing (st : Store) (cid : ℕ) (svar : Handle)
    (child : Project) (ts : List Thumb) (fault : Option DupFault) :
    finishTimeline st cid svar child ts fault ≠ .processing := by
  unfold finishTimeline
  split
  · simp
  · split <;> simp

/-- After the `storage_id` update the collection reads: the original records
plus the child carrying its primary handle. -/
theorem dupSetStorage_projects (st : Store) (p : Project)
    (horig : ∀ q ∈ st.projects, q.id ≠ st.nextId) :
    (dupSetStorage st p).projects = st.projects ++ [dupChild1 st p] :=
  map_update_append st.projects (dupChild p st.nextId) st.nextId
    (fun q => { q with storage_id := some (dupPrimary st p).2 }) horig rfl

/-- After the preview update the collection reads: the original records plus
the child carrying primary handle and preview reference. -/
theorem dupSetPreview_projects (st : Store) (p : Project) (prev : Preview)
    (horig : ∀ q ∈ st.projects, q.id ≠ st.nextId) :
    (dupSetPreview st p prev).projects = st.projects ++ [dupChild2 st p prev] := by
  have h1 : (dupPreviewPut st p).1.projects = st.projects ++ [dupChild1 st p] :=
    dupSetStorage_projects st p horig
  show (dupPreviewPut st p).1.projects.map
      (fun q => if q.id = st.nextId then { q with preview := some (dupNewPrev st p prev) } else q) =
    st.projects ++ [dupChild2 st p prev]
  rw [h1]
  exact map_update_append _ _ _ _ horig rfl

/-- After the preview copy the blob store reads: the original blobs plus the
child's primary and preview blobs. -/
theorem dupSetPreview_blobs (st : Store) (p : Project) (prev : Preview) :
    (dupSetPreview st p prev).blobs =
      st.blobs ++ [(dupPrimary st p).2, (dupPreviewPut st p).2] := by
  show (st.blobs ++ [(dupPrimary st p).2]) ++ [(dupPreviewPut st p).2] =
    st.blobs ++ [(dupPrimary st p).2, (dupPreviewPut st p).2]
  simp

/-- C1: duplication of a parent with no processing flag held either rolls
back completely — after any injected fault at a blob-copy step the record
collection and the blob store read exactly as before the request — or
produces a fully formed child: its record is stored with correct lineage, and
its primary blob, preview blob (iff the parent had one) and each of its
timeline thumbnail blobs (one per parent thumbnail) exist in the child's own
subtree and are physically new copies, distinct from every pre-existing
blob. -/
theorem duplicate_atomic (st : Store) (p : Project) (fault : Option DupFault)
    (hwf : WfStore st) (hp : p ∈ st.projects)
    (hv : p.processing.video = false)
    (hpv : p.processing.thumbnail_preview = false)
    (htl : p.processing.thumbnails_timeline = false) :
    duplicate st p fault ≠ .processing ∧
    (∀ st1, duplicate st p fault = .internalError st1 → noChildTrace st st1) ∧
    (∀ st1 child, duplicate st p fault = .created st1 child →
      fullyFormed p st st1 child) := by
  obtain ⟨hwfp, hwfb⟩ := hwf
  have horig : ∀ q ∈ st.projects, q.id ≠ st.nextId :=
    fun q hq => Nat.ne_of_lt (hwfp q hq)
  have hob : ∀ b ∈ st.blobs, b.scope ≠ st.nextId :=
    fun b hb => Nat.ne_of_lt (hwfb b hb)
  have hbusy : (p.processing.video || p.processing.thumbnail_preview ||
      p.processing.thumbnails_timeline) = false := by
    rw [hv, hpv, htl]
    rfl
  by_cases hf1 : fault = some .putPrimary
  · have hdup : duplicate st p fault =
        .internalError (dbDeleteOne (dupInsert st p) st.nextId) := by
      unfold duplicate
      rw [hbusy, hf1]
      simp
    refine ⟨?_, ?_, ?_⟩
    · rw [hdup]
      simp
    · intro st1 heq
      rw [hdup] at heq
      injection heq with h2
      subst h2
      refine ⟨?_, rfl⟩
      show (st.projects ++ [dupChild p st.nextId]).filter
        (fun q => decide (q.id ≠ st.nextId)) = st.projects
      exact filter_id_append _ _ _ horig rfl
    · intro st1 child heq
      rw [hdup] at heq
      exact absurd heq (by simp)
  · cases hprev : p.preview with
    | none =>
      have hdup : duplicate st p fault =
          finishTimeline (dupSetStorage st p) st.nextId (dupPrimary st p).2
            (dupChild1 st p) p.timeline fault := by
        unfold duplicate
        rw [hbusy, hprev]
        simp [hf1]
      have hspec := finishTimeline_spec st (dupSetStorage st p) st.nextId
        (dupPrimary st p).2 (dupChild1 st p) p.timeline fault rfl
        (dupSetStorage_projects st p horig) rfl rfl horig
        ⟨[(dupPrimary st p).2], rfl, by
          intro b hb
          simp at hb
          subst hb
          rfl⟩ hob
      refine ⟨?_, ?_, ?_⟩
      · rw [hdup]
        exact finishTimeline_ne_processing _ _ _ _ _ _
      · intro st1 heq
        rw [hdup] at heq
        exact hspec.1 st1 heq
      · intro st1 child heq
        rw [hdup] at heq
        obtain ⟨c1proj, c1id, c1sid, c1prevEq, c1par, c1ver, c1len, c1thumbs, ex2, hex2⟩ :=
          hspec.2 st1 child heq
        have hmemB : (dupPrimary st p).2 ∈ st1.blobs := by
          rw [hex2]
          refine List.mem_append_left _ ?_
          show (dupPrimary st p).2 ∈ st.blobs ++ [(dupPrimary st p).2]
          exact List.mem_append_right _ (List.mem_cons_self _ _)
        refine ⟨?_, c1par, c1ver,
          ⟨(dupPrimary st p).2, c1sid, ⟨hmemB, ?_⟩, ?_⟩, c1len, ?_, ?_, ?_⟩
        · rw [c1proj]
          exact List.mem_append_right _ (List.mem_cons_self _ _)
        · rw [c1id]
          rfl
        · intro hmem
          exact hob _ hmem rfl
        · intro u hu
          obtain ⟨humem, huscope⟩ := c1thumbs u hu
          refine ⟨⟨humem, ?_⟩, ?_⟩
          · rw [c1id]
            exact huscope
          · intro hmem
            exact hob _ hmem huscope
        · rw [c1prevEq, hprev]
          rfl
        · intro pv hpv
          rw [c1prevEq] at hpv
          exact Option.noConfusion hpv
    | some prev =>
      by_cases hf2 : fault = some .putPreview
      · have hdup : duplicate st p fault =
            .internalError
              (dbDeleteOne (fsDeleteDir (dupSetStorage st p) (dupPrimary st p).2)
                st.nextId) := by
          unfold duplicate
          rw [hbusy, hprev, hf2]
          simp [hf1]
        refine ⟨?_, ?_, ?_⟩
        · rw [hdup]
          simp
        · intro st1 heq
          rw [hdup] at heq
          injection heq with h2
          subst h2
          constructor
          · show (dupSetStorage st p).projects.filter
              (fun q => decide (q.id ≠ st.nextId)) = st.projects
            rw [dupSetStorage_projects st p horig]
            exact filter_id_append _ _ _ horig rfl
          · show (st.blobs ++ [(dupPrimary st p).2]).filter
              (fun b => decide (b.scope ≠ st.nextId)) = st.blobs
            refine filter_scope_append _ _ _ hob ?_
            intro b hb
            simp at hb
            subst hb
            rfl
        · intro st1 child heq
          rw [hdup] at heq
          exact absurd heq (by simp)
      · have hdup : duplicate st p fault =
            finishTimeline (dupSetPreview st p prev) st.nextId (dupPreviewPut st p).2
              (dupChild2 st p prev) p.timeline fault := by
          unfold duplicate
          rw [hbusy, hprev]
          simp [hf1, hf2]
        have hspec := finishTimeline_spec st (dupSetPreview st p prev) st.nextId
          (dupPreviewPut st p).2 (dupChild2 st p prev) p.timeline fault rfl
          (dupSetPreview_projects st p prev horig) rfl rfl horig
          ⟨[(dupPrimary st p).2, (dupPreviewPut st p).2], dupSetPreview_blobs st p prev, by
            intro b hb
            simp at hb
            rcases hb with rfl | rfl
            · rfl
            · rfl⟩ hob
        refine ⟨?_, ?_, ?_⟩
        · rw [hdup]
          exact finishTimeline_ne_processing _ _ _ _ _ _
        · intro st1 heq
          rw [hdup] at heq
          exact hspec.1 st1 heq
        · intro st1 child heq
          rw [hdup] at heq
          obtain ⟨c1proj, c1id, c1sid, c1prevEq, c1par, c1ver, c1len, c1thumbs, ex2, hex2⟩ :=
            hspec.2 st1 child heq
          have hblobs2 : st1.blobs =
              (st.blobs ++ [(dupPrimary st p).2, (dupPreviewPut st p).2]) ++ ex2 := by
            rw [hex2, dupSetPreview_blobs]
          have hmemPrim : (dupPrimary st p).2 ∈ st1.blobs := by
            rw [hblobs2]
            simp
          have hmemPrev : (dupPreviewPut st p).2 ∈ st1.blobs := by
            rw [hblobs2]
            simp
          refine ⟨?_, c1par, c1ver,
            ⟨(dupPrimary st p).2, c1sid, ⟨hmemPrim, ?_⟩, ?_⟩, c1len, ?_, ?_, ?_⟩
          · rw [c1proj]
            exact List.mem_append_right _ (List.mem_cons_self _ _)
          · rw [c1id]
            rfl
          · intro hmem
            exact hob _ hmem rfl
          · intro u hu
            obtain ⟨humem, huscope⟩ := c1thumbs u hu
            refine ⟨⟨humem, ?_⟩, ?_⟩
            · rw [c1id]
              exact huscope
            · intro hmem
              exact hob _ hmem huscope
          · rw [c1prevEq, hprev]
            rfl
          · intro pv hpv
            rw [c1prevEq] at hpv
            have hpv2 : dupNewPrev st p prev = pv := Option.some.inj hpv
            subst hpv2
            refine ⟨⟨hmemPrev, ?_⟩, ?_⟩
            · rw [c1id]
              rfl
            · intro hmem
              exact hob _ hmem rfl

/-- C1 witness: duplicating a parent with a preview and one timeline
thumbnail, with a fault injected at the first timeline-thumbnail copy, rolls
back to exactly the original store. -/
theorem duplicate_atomic_witness :
    WfStore exStore ∧ exParent ∈ exStore.projects ∧
    exParent.processing.video = false ∧
    exParent.processing.thumbnail_preview = false ∧
    exParent.processing.thumbnails_timeline = false ∧
    (∀ st1, duplicate exStore exParent (some (.putTimeline 0)) = .internalError st1 →
      noChildTrace exStore st1) :=
  ⟨⟨by decide, by decide⟩, by decide, by decide, by decide, by decide,
    (duplicate_atomic exStore exParent (some (.putTimeline 0)) ⟨by decide, by decide⟩
      (by decide) (by decide) (by decide) (by decide)).2.1⟩

/-- A handle never survives a filter that removes it. -/
theorem not_mem_filter_ne (l : List Handle) (a : Handle) :
    a ∉ l.filter (fun b => decide (b ≠ a)) := by
  intro h
  have := List.of_mem_filter h
  simp at this

/-- C6 counterexample: with a stored preview at handle `⟨0, 2⟩` and a new
upload landing at `⟨0, 7⟩`, the state reached after the delete step — an
intermediate state of the endpoint, strictly before the record update — has
the project record still referencing the already-deleted blob, refuting "at
no intermediate point is a blob that the record still references deleted
before the replacement reference has been recorded". -/
theorem preview_upload_dangling_counterexample :
    (uploadCustomPreviewStates exUpStore exPrevP exUpNewHandle exUpMeta).get? 2 =
      some (uploadDeleteState exUpStore exPrevP exUpNewHandle) ∧
    (uploadCustomPreviewStates exUpStore exPrevP exUpNewHandle exUpMeta).get? 3 =
      some (uploadFinalState exUpStore exPrevP exUpNewHandle exUpMeta) ∧
    danglingPreviewRef (uploadDeleteState exUpStore exPrevP exUpNewHandle) = true := by
  decide

/-- C6 amended: whenever the new blob's handle differs from the previously
referenced one, the superseded blob is deleted and the final state references
the new, existing blob with no superseded blob left; however the deletion
happens *before* the replacement reference is recorded: at the intermediate
state after the delete, the unmodified record still references the deleted
blob. -/
theorem preview_upload_replacement (st : Store) (p : Project) (prev : Preview)
    (hNew : Handle) (m : UploadMeta)
    (hflag : p.processing.thumbnail_preview = false)
    (hp : p ∈ st.projects)
    (hprev : p.preview = some prev)
    (hdiff : hNew ≠ prev.storage_id) :
    uploadCustomPreviewStates st p hNew m =
      [st, uploadPutState st hNew, uploadDeleteState st p hNew,
        uploadFinalState st p hNew m] ∧
    p ∈ (uploadDeleteState st p hNew).projects ∧
    prev.storage_id ∉ (uploadDeleteState st p hNew).blobs ∧
    prev.storage_id ∉ (uploadFinalState st p hNew m).blobs ∧
    hNew ∈ (uploadFinalState st p hNew m).blobs ∧
    { p with preview := some (uploadNewPreview hNew m) } ∈
      (uploadFinalState st p hNew m).projects := by
  have hdel : uploadDeleteState st p hNew =
      fsDelete (uploadPutState st hNew) prev.storage_id := by
    unfold uploadDeleteState
    rw [hprev]
    simp [hdiff]
  have hdelproj : (uploadDeleteState st p hNew).projects = st.projects := by
    rw [hdel]
    rfl
  have hdelblobs : prev.storage_id ∉ (uploadDeleteState st p hNew).blobs := by
    rw [hdel]
    exact not_mem_filter_ne _ _
  have hfinblobs : (uploadFinalState st p hNew m).blobs =
      (uploadDeleteState st p hNew).blobs := rfl
  refine ⟨?_, ?_, hdelblobs, ?_, ?_, ?_⟩
  · unfold uploadCustomPreviewStates
    rw [if_neg (by simp [hflag])]
  · rw [hdelproj]; exact hp
  · rw [hfinblobs]; exact hdelblobs
  · rw [hfinblobs, hdel]
    apply List.mem_filter_of_mem
    · unfold uploadPutState fsPutAt
      by_cases hmem : hNew ∈ st.blobs
      · simp [hmem]
      · simp [hmem]
    · simpa using hdiff
  · show { p with preview := some (uploadNewPreview hNew m) } ∈
      (dbUpdate (uploadDeleteState st p hNew) p.id _).projects
    unfold dbUpdate
    have hmem : p ∈ (uploadDeleteState st p hNew).projects := by
      rw [hdelproj]; exact hp
    have := List.mem_map_of_mem
      (f := fun q => if q.id = p.id then { q with preview := some (uploadNewPreview hNew m) } else q)
      hmem
    simpa using this

/-- C6 witness for the amended claim at the concrete upload scenario. -/
theorem preview_upload_replacement_witness :
    exPrevP.processing.thumbnail_preview = false ∧
    exPrevP ∈ exUpStore.projects ∧
    exPrevP.preview = some ⟨7, 8, 640, 360, 200, ⟨0, 2⟩, .num 5⟩ ∧
    exUpNewHandle ≠ (⟨0, 2⟩ : Handle) ∧
    (⟨0, 2⟩ : Handle) ∉ (uploadFinalState exUpStore exPrevP exUpNewHandle exUpMeta).blobs ∧
    exUpNewHandle ∈ (uploadFinalState exUpStore exPrevP exUpNewHandle exUpMeta).blobs := by
  refine ⟨by decide, by decide, by decide, by decide, ?_, ?_⟩
  · exact (preview_upload_replacement exUpStore exPrevP ⟨7, 8, 640, 360, 200, ⟨0, 2⟩, .num 5⟩
      exUpNewHandle exUpMeta (by decide) (by decide) (by decide) (by decide)).2.2.2.1
  · exact (preview_upload_replacement exUpStore exPrevP ⟨7, 8, 640, 360, 200, ⟨0, 2⟩, .num 5⟩
      exUpNewHandle exUpMeta (by decide) (by decide) (by decide) (by decide)).2.2.2.2.1

end VideoServer
